import Mathlib

/-!
Verification of the `safetensor-info` tool (`src/tools/safetensor-info/safetensor_info.py`).

Two layers are embedded:

1. The driver code of `safetensor_info.py` itself: `format_bytes` and
   `get_safetensor_info` (the framework-fallback loop over the external
   `safetensors` library, the metadata truthiness check, and the per-tensor
   aggregation loop).  The external library call `safe_open(...)` is abstracted
   as an environment `env : String → List Nat → FrameworkOutcome` giving, for
   each framework name and file contents, the outcome of one attempt.

2. The safetensors container parser and validator described by the design
   document.  The actual parsing lives in the external `safetensors` library,
   whose code is not part of this repository, so that layer is modelled from
   the spec (each such definition's doc comment starts `Modelled from the
   spec:`).
-/

/-! ## Source-level embedding: `get_safetensor_info` -/

/-- A metadata mapping (Python `Dict[str, str]`, as an association list in
insertion order). -/
abbrev MetaMap := List (String × String)

/-- Abstraction of one tensor as surfaced by a framework backend inside
`safe_open`: the fields the source reads from the materialized tensor
(`tensor.shape`, `str(tensor.dtype)`, `tensor.numel()`, `tensor.nbytes`). -/
structure BTensor where
  shape : List Nat
  dtype : String
  numel : Nat
  nbytes : Nat
deriving Repr, DecidableEq

/-- One per-tensor record of the output dict
(`{'shape': ..., 'dtype': ..., 'parameters': ..., 'size_bytes': ...}`). -/
structure TensorOut where
  shape : List Nat
  dtype : String
  parameters : Nat
  size_bytes : Nat
deriving Repr, DecidableEq

/-- The `info` dict built by `get_safetensor_info`. -/
structure STInfo where
  file_path : String
  file_size : Nat
  metadata : Option MetaMap
  tensors : List (String × TensorOut)
  tensor_count : Nat
  total_parameters : Nat
deriving Repr, DecidableEq

/-- Outcome of one `with safe_open(file_path, framework=fw)` attempt.
`failEarly` is an exception raised before the `info['metadata']` mutation
(in `safe_open` or `f.metadata()`); `failLate md e` is an exception raised
after the metadata step ran with result `md` (e.g. in `f.get_tensor`);
`success md ts` is a complete attempt: metadata `md` and the tensors
enumerated by `f.keys()` in enumeration order. -/
inductive FrameworkOutcome where
  | failEarly (err : String)
  | failLate (md : Option MetaMap) (err : String)
  | success (md : Option MetaMap) (tensors : List (String × BTensor))
deriving Repr, DecidableEq

/-- The Python truthiness update `if metadata: info['metadata'] = dict(metadata)`:
the stored value is replaced only when `metadata` is a non-empty dict. -/
def updateMetadata (cur md : Option MetaMap) : Option MetaMap :=
  match md with
  | some l => if l = [] then cur else some l
  | none => cur

/-- `tensor_info[key] = entry` with Python dict semantics: an existing key is
updated in place (keeping its original position), a new key is appended. -/
def dictInsert (d : List (String × TensorOut)) (k : String) (v : TensorOut) :
    List (String × TensorOut) :=
  if k ∈ d.map Prod.fst then
    d.map (fun p => if p.1 = k then (k, v) else p)
  else
    d ++ [(k, v)]

/-- The per-tensor record the loop body stores for one backend tensor. -/
def toTensorOut (t : BTensor) : TensorOut :=
  { shape := t.shape, dtype := t.dtype, parameters := t.numel, size_bytes := t.nbytes }

/-- The `for key in f.keys():` loop: builds `tensor_info` and accumulates
`total_params += tensor.numel()`. -/
def aggLoop : List (String × BTensor) → List (String × TensorOut) → Nat →
    List (String × TensorOut) × Nat
  | [], d, tot => (d, tot)
  | (k, t) :: rest, d, tot => aggLoop rest (dictInsert d k (toTensorOut t)) (tot + t.numel)

/-- The assignments performed on a successful attempt:
`info['tensors'] / info['tensor_count'] / info['total_parameters']`, together
with the already-updated `info['metadata']` and the initial
`file_path` / `file_size` fields. -/
def buildInfo (path : String) (fsize : Nat) (md : Option MetaMap)
    (ts : List (String × BTensor)) : STInfo :=
  { file_path := path
    file_size := fsize
    metadata := md
    tensors := (aggLoop ts [] 0).1
    tensor_count := (aggLoop ts [] 0).1.length
    total_parameters := (aggLoop ts [] 0).2 }

/-- The `for framework in frameworks_to_try:` loop with its `except` clause:
on failure record `last_error` and continue; on success build the info dict
and `break`.  The `cur` argument threads the mutable `info['metadata']`
(which a late-failing earlier attempt may already have set). -/
def tryFrameworks (path : String) (env : String → List Nat → FrameworkOutcome)
    (b : List Nat) : List String → Option MetaMap → Option String →
    Except String STInfo
  | [], _, lastErr =>
      .error ("Error reading safetensor file with all frameworks. Last error: "
              ++ lastErr.getD "None")
  | fw :: rest, cur, _ =>
      match env fw b with
      | .failEarly e => tryFrameworks path env b rest cur (some e)
      | .failLate md e => tryFrameworks path env b rest (updateMetadata cur md) (some e)
      | .success md ts => .ok (buildInfo path b.length (updateMetadata cur md) ts)

/-- `frameworks_to_try = ["pt", "tf", "flax", "numpy"]`. -/
def frameworks_to_try : List String := ["pt", "tf", "flax", "numpy"]

/-- `get_safetensor_info`: try each framework in order; raise if all fail. -/
def get_safetensor_info (path : String) (env : String → List Nat → FrameworkOutcome)
    (b : List Nat) : Except String STInfo :=
  tryFrameworks path env b frameworks_to_try none none

/-! ## Source-level embedding: `format_bytes`

The Python function divides a float by `1024.0` through the unit list.  All
comparisons it performs on inputs below `1024^5` involve exact binary
rationals (an integer below `2^53` divided by a power of two), and for inputs
at or above `1024^5` every comparison fails regardless of rounding, so the
unit selection is modelled exactly over `ℚ`.  `f"{x:.1f}"` rounds to one
decimal digit with round-half-to-even. -/

/-- Round a rational to the nearest integer, ties to even
(the rounding used by Python float formatting). -/
def roundHalfEven (q : ℚ) : ℤ :=
  let f := ⌊q⌋
  let r := q - f
  if r < 1/2 then f
  else if 1/2 < r then f + 1
  else if f % 2 = 0 then f else f + 1

/-- `f"{x:.1f}"` for a non-negative value: the rounded tenths `m`, printed as
integer part, a dot, and one decimal digit. -/
def renderFixed1 (q : ℚ) : String :=
  let m := roundHalfEven (q * 10)
  toString (m / 10) ++ "." ++ toString (m % 10)

/-- The loop body of `format_bytes`: walk the unit list, returning at the
first unit whose scaled value is below 1024, dividing by 1024 otherwise;
fall through to `"PB"`. -/
def fbAux (q : ℚ) : List String → String
  | [] => renderFixed1 q ++ " PB"
  | u :: rest => if q < 1024 then renderFixed1 q ++ " " ++ u else fbAux (q / 1024) rest

/-- `format_bytes`: convert a byte count to a human readable string. -/
def format_bytes (n : Nat) : String :=
  fbAux (n : ℚ) ["B", "KB", "MB", "GB", "TB"]

/-- The unit picked when the value was scaled down `k` times. -/
def fbUnitName : Nat → String
  | 0 => "B"
  | 1 => "KB"
  | 2 => "MB"
  | 3 => "GB"
  | 4 => "TB"
  | _ => "PB"

/-! ## Spec-modelled safetensors container parser

The actual header decoding and entry validation happen inside the external
`safetensors` library (`safe_open`), whose code is not part of this
repository; this layer is modelled from the design document (sections 3, 4.1,
4.2, 4.3, 6 and 7).  JSON text parsing itself is abstracted as a parameter
`jp : List Nat → Option HeaderJson` turning the header bytes into a structured
header record, `none` standing for "not valid UTF-8 / not a well-formed JSON
object". -/

/-- Modelled from the spec: one tensor entry of the header JSON
(`dtype`, `shape`, `data_offsets = [offBegin, offEnd]`). -/
structure TensorEntry where
  dtype : String
  shape : List Nat
  offBegin : Nat
  offEnd : Nat
deriving Repr, DecidableEq

/-- Modelled from the spec: the parsed header JSON object — the optional
reserved `__metadata__` mapping, and the tensor entries keyed by name, in the
order the keys appear in the header JSON (insertion order). -/
structure HeaderJson where
  metadata : Option MetaMap
  entries : List (String × TensorEntry)
deriving Repr, DecidableEq

/-- Modelled from the spec: the typed error kinds of section 7, each carrying
the offending tensor name (when applicable) and the numeric values involved. -/
inductive STError where
  | truncatedFile (actual expected : Nat)
  | malformedHeader (what : String)
  | unknownDtype (name code : String)
  | sizeMismatch (name : String) (expected actual : Nat)
  | offsetOutOfRange (name : String) (offEnd payload : Nat)
  | overlappingTensors (a b : String)
deriving Repr, DecidableEq

/-- Modelled from the spec: a validated tensor — the entry plus derived
`parameters` (product of shape dimensions, 1 for an empty shape) and
`size_bytes` (`offEnd - offBegin`). -/
structure ValidatedTensor where
  name : String
  dtype : String
  shape : List Nat
  offBegin : Nat
  offEnd : Nat
  parameters : Nat
  size_bytes : Nat
deriving Repr, DecidableEq

/-- Modelled from the spec: the report record handed to the renderer. -/
structure Report where
  file_path : String
  file_size : Nat
  metadata : Option MetaMap
  tensors : List ValidatedTensor
  tensor_count : Nat
  total_parameters : Nat
deriving Repr, DecidableEq

/-- Modelled from the spec: the first 8 bytes as an unsigned little-endian
64-bit integer. -/
def read_le64 (bs : List Nat) : Nat :=
  (bs.take 8).foldr (fun b acc => b + 256 * acc) 0

/-- The `header_length`-byte JSON blob following the 8-byte length prefix. -/
def headerBytes (bs : List Nat) : List Nat :=
  (bs.drop 8).take (read_le64 bs)

/-- Modelled from the spec: the dtype registry, `code → byte width`;
an unknown code is reported as "not found". -/
def dtype_byte_width : String → Option Nat
  | "F64" => some 8
  | "F32" => some 4
  | "F16" => some 2
  | "BF16" => some 2
  | "I64" => some 8
  | "I32" => some 4
  | "I16" => some 2
  | "I8" => some 1
  | "U8" => some 1
  | "BOOL" => some 1
  | "F8_E4M3" => some 1
  | "F8_E5M2" => some 1
  | _ => none

/-- Modelled from the spec: validate one tensor entry — offsets must satisfy
`offBegin ≤ offEnd` (otherwise `malformedHeader` naming the tensor), the dtype
must be registered (otherwise `unknownDtype`), and the declared byte range
must equal `parameters * byte_width` (otherwise `sizeMismatch`). -/
def validateEntry (name : String) (e : TensorEntry) : Except STError ValidatedTensor :=
  match dtype_byte_width e.dtype with
  | none => .error (.unknownDtype name e.dtype)
  | some w =>
    if e.offBegin ≤ e.offEnd then
      if e.offEnd - e.offBegin = e.shape.prod * w then
        .ok { name := name, dtype := e.dtype, shape := e.shape,
              offBegin := e.offBegin, offEnd := e.offEnd,
              parameters := e.shape.prod, size_bytes := e.offEnd - e.offBegin }
      else
        .error (.sizeMismatch name (e.shape.prod * w) (e.offEnd - e.offBegin))
    else .error (.malformedHeader name)

/-- Modelled from the spec: validate every entry, in header key order. -/
def validateEntries : List (String × TensorEntry) → Except STError (List ValidatedTensor)
  | [] => .ok []
  | (k, e) :: rest =>
    match validateEntry k e with
    | .error err => .error err
    | .ok v =>
      match validateEntries rest with
      | .error err => .error err
      | .ok vs => .ok (v :: vs)

/-- Insert a tensor into a list sorted by `offBegin` (ascending). -/
def insertByBegin (v : ValidatedTensor) : List ValidatedTensor → List ValidatedTensor
  | [] => [v]
  | w :: ws => if v.offBegin ≤ w.offBegin then v :: w :: ws else w :: insertByBegin v ws

/-- Sort validated tensors by `offBegin` (insertion sort). -/
def sortByBegin : List ValidatedTensor → List ValidatedTensor
  | [] => []
  | v :: vs => insertByBegin v (sortByBegin vs)

/-- Modelled from the spec: after sorting by `offBegin`, each range must start
no earlier than the previous range ends; a violation is `overlappingTensors`
naming both tensors. -/
def checkAdjacent : List ValidatedTensor → Except STError Unit
  | [] => .ok ()
  | [_] => .ok ()
  | a :: b :: rest =>
    if b.offBegin < a.offEnd then .error (.overlappingTensors a.name b.name)
    else checkAdjacent (b :: rest)

/-- Modelled from the spec: every range must end within the payload region;
a violation is `offsetOutOfRange` naming the tensor. -/
def checkContained (payload : Nat) : List ValidatedTensor → Except STError Unit
  | [] => .ok ()
  | v :: vs =>
    if payload < v.offEnd then .error (.offsetOutOfRange v.name v.offEnd payload)
    else checkContained payload vs

/-- Modelled from the spec: containment within the payload, then pairwise
non-overlap of the `[offBegin, offEnd)` ranges. -/
def checkRanges (payload : Nat) (vts : List ValidatedTensor) : Except STError Unit :=
  match checkContained payload vts with
  | .error e => .error e
  | .ok _ => checkAdjacent (sortByBegin vts)

/-- Modelled from the spec: the whole pipeline — frame decoding (fewer than 8
bytes, or fewer than `8 + header_length` total bytes, is `truncatedFile`; the
sections 7 and 8 of the spec make truncation take precedence over the
header-length sanity ceiling), JSON parsing (`malformedHeader` on failure),
entry validation, range checks, and report aggregation (`tensor_count`,
`total_parameters`) preserving header key order. -/
def inspectFile (jp : List Nat → Option HeaderJson) (path : String)
    (bytes : List Nat) : Except STError Report :=
  if bytes.length < 8 then .error (.truncatedFile bytes.length 8)
  else
    let K := read_le64 bytes
    if bytes.length < 8 + K then .error (.truncatedFile bytes.length (8 + K))
    else
      match jp (headerBytes bytes) with
      | none => .error (.malformedHeader "header is not a valid UTF-8 JSON object")
      | some h =>
        match validateEntries h.entries with
        | .error e => .error e
        | .ok vts =>
          match checkRanges (bytes.length - 8 - K) vts with
          | .error e => .error e
          | .ok _ =>
            .ok { file_path := path
                  file_size := bytes.length
                  metadata := h.metadata
                  tensors := vts
                  tensor_count := vts.length
                  total_parameters := (vts.map (fun v => v.parameters)).sum }

/-- The framework-fallback chain written out the way the spec describes it:
try `pt`, then `tf`, then `flax`, then `numpy`, stopping at the first
success; if all four fail, report a single error containing only the last
framework's error.  (The `cur` arguments thread the `info['metadata']`
mutation exactly as the source loop does.) -/
def frameworkChainSpec (path : String) (env : String → List Nat → FrameworkOutcome)
    (b : List Nat) : Except String STInfo :=
  let finish := fun (cur md : Option MetaMap) ts =>
    Except.ok (buildInfo path b.length (updateMetadata cur md) ts)
  let allFailed := fun (e : String) =>
    (Except.error ("Error reading safetensor file with all frameworks. Last error: " ++ e) :
      Except String STInfo)
  let tryNumpy := fun (cur : Option MetaMap) =>
    match env "numpy" b with
    | .success md ts => finish cur md ts
    | .failEarly e => allFailed e
    | .failLate _ e => allFailed e
  let tryFlax := fun (cur : Option MetaMap) =>
    match env "flax" b with
    | .success md ts => finish cur md ts
    | .failEarly _ => tryNumpy cur
    | .failLate md _ => tryNumpy (updateMetadata cur md)
  let tryTf := fun (cur : Option MetaMap) =>
    match env "tf" b with
    | .success md ts => finish cur md ts
    | .failEarly _ => tryFlax cur
    | .failLate md _ => tryFlax (updateMetadata cur md)
  match env "pt" b with
  | .success md ts => finish none md ts
  | .failEarly _ => tryTf none
  | .failLate md _ => tryTf (updateMetadata none md)

/-! ## Helper lemmas -/

/-- A successful run of the framework loop comes from some framework in the
list whose attempt fully succeeded, and the result is exactly the info dict
built from that attempt's tensors. -/
theorem tryFrameworks_ok_char (path : String) (env : String → List Nat → FrameworkOutcome)
    (b : List Nat) :
    ∀ (fws : List String) (cur : Option MetaMap) (lastErr : Option String) (r : STInfo),
    tryFrameworks path env b fws cur lastErr = .ok r →
    ∃ fw md ts cur2, fw ∈ fws ∧ env fw b = .success md ts ∧
      r = buildInfo path b.length (updateMetadata cur2 md) ts := by
  intro fws
  induction fws with
  | nil => intro cur lastErr r h; simp [tryFrameworks] at h
  | cons fw rest ih =>
    intro cur lastErr r h
    simp only [tryFrameworks] at h
    cases henv : env fw b with
    | failEarly e =>
      rw [henv] at h
      obtain ⟨fw2, md, ts, cur2, hmem, hsucc, hr⟩ := ih cur (some e) r h
      exact ⟨fw2, md, ts, cur2, List.mem_cons_of_mem _ hmem, hsucc, hr⟩
    | failLate md e =>
      rw [henv] at h
      obtain ⟨fw2, md2, ts, cur2, hmem, hsucc, hr⟩ := ih _ (some e) r h
      exact ⟨fw2, md2, ts, cur2, List.mem_cons_of_mem _ hmem, hsucc, hr⟩
    | success md ts =>
      rw [henv] at h
      refine ⟨fw, md, ts, cur, List.mem_cons_self _ _, henv, ?_⟩
      cases h
      rfl

/-- When the enumerated keys are pairwise distinct and disjoint from the
accumulator, the aggregation loop is a plain append plus a plain sum. -/
theorem aggLoop_char :
    ∀ (ts : List (String × BTensor)) (d : List (String × TensorOut)) (tot : Nat),
    (ts.map Prod.fst).Nodup →
    (∀ k ∈ ts.map Prod.fst, k ∉ d.map Prod.fst) →
    aggLoop ts d tot = (d ++ ts.map (fun p => (p.1, toTensorOut p.2)),
      tot + (ts.map (fun p => p.2.numel)).sum) := by
  intro ts
  induction ts with
  | nil => intro d tot _ _; simp [aggLoop]
  | cons p rest ih =>
    obtain ⟨k, t⟩ := p
    intro d tot hnd hdisj
    simp only [List.map_cons, List.nodup_cons] at hnd
    have hk : k ∉ d.map Prod.fst := hdisj k (by simp)
    have hdisj2 : ∀ k2 ∈ rest.map Prod.fst, k2 ∉ (d ++ [(k, toTensorOut t)]).map Prod.fst := by
      intro k2 hk2
      simp only [List.map_append, List.map_cons, List.map_nil, List.mem_append,
        List.mem_singleton]
      rintro (hin | hEq)
      · exact hdisj k2 (by simp [hk2]) hin
      · exact hnd.1 (hEq ▸ hk2)
    simp only [aggLoop, dictInsert, if_neg hk]
    rw [ih (d ++ [(k, toTensorOut t)]) (tot + t.numel) hnd.2 hdisj2]
    simp [List.append_assoc, Nat.add_assoc]

/-- A validated tensor keeps the entry's name and satisfies the derived-field
invariants. -/
theorem validateEntry_ok_inv (k : String) (e : TensorEntry) (v : ValidatedTensor)
    (h : validateEntry k e = .ok v) :
    v.name = k ∧ v.parameters = v.shape.prod ∧
    ∃ w, dtype_byte_width v.dtype = some w ∧ v.size_bytes = v.parameters * w := by
  cases hw : dtype_byte_width e.dtype with
  | none =>
    simp only [validateEntry, hw] at h
    exact Except.noConfusion h
  | some w =>
    by_cases h1 : e.offBegin ≤ e.offEnd
    · by_cases h2 : e.offEnd - e.offBegin = e.shape.prod * w
      · simp only [validateEntry, hw, if_pos h1, if_pos h2] at h
        cases h
        exact ⟨rfl, rfl, w, hw, h2⟩
      · simp only [validateEntry, hw, if_pos h1, if_neg h2] at h
        exact Except.noConfusion h
    · simp only [validateEntry, hw, if_neg h1] at h
      exact Except.noConfusion h

/-- Validation preserves the header key order on the names of its output. -/
theorem validateEntries_ok_names :
    ∀ (l : List (String × TensorEntry)) (vs : List ValidatedTensor),
    validateEntries l = .ok vs → vs.map (fun v => v.name) = l.map Prod.fst := by
  intro l
  induction l with
  | nil => intro vs h; simp only [validateEntries] at h; cases h; rfl
  | cons p rest ih =>
    obtain ⟨k, e⟩ := p
    intro vs h
    simp only [validateEntries] at h
    cases hv : validateEntry k e with
    | error err => rw [hv] at h; simp at h
    | ok v =>
      rw [hv] at h
      cases hrest : validateEntries rest with
      | error err => rw [hrest] at h; simp at h
      | ok vs2 =>
        rw [hrest] at h
        cases h
        simp [ih vs2 hrest, (validateEntry_ok_inv k e v hv).1]

/-- Every validated tensor of a successful validation comes from validating
one of the entries. -/
theorem validateEntries_ok_mem :
    ∀ (l : List (String × TensorEntry)) (vs : List ValidatedTensor),
    validateEntries l = .ok vs → ∀ v ∈ vs, ∃ k e, validateEntry k e = .ok v := by
  intro l
  induction l with
  | nil => intro vs h; simp only [validateEntries] at h; cases h; simp
  | cons p rest ih =>
    obtain ⟨k, e⟩ := p
    intro vs h
    simp only [validateEntries] at h
    cases hv : validateEntry k e with
    | error err => rw [hv] at h; simp at h
    | ok v =>
      rw [hv] at h
      cases hrest : validateEntries rest with
      | error err => rw [hrest] at h; simp at h
      | ok vs2 =>
        rw [hrest] at h
        cases h
        intro v2 hv2
        rcases List.mem_cons.mp hv2 with hEq | hmem
        · exact ⟨k, e, hEq ▸ hv⟩
        · exact ih vs2 hrest v2 hmem

/-! ## Concrete instances used by witnesses and counterexamples -/

/-- An environment in which every framework succeeds with two distinct keys. -/
def c1Env : String → List Nat → FrameworkOutcome :=
  fun _ _ => .success none
    [("a", ⟨[2, 3], "torch.float32", 6, 24⟩), ("b", ⟨[4], "torch.float32", 4, 16⟩)]

/-- The info dict produced by `c1Env` on the empty file. -/
def c1Info : STInfo :=
  { file_path := "p", file_size := 0, metadata := none,
    tensors := [("a", ⟨[2, 3], "torch.float32", 6, 24⟩),
                ("b", ⟨[4], "torch.float32", 4, 16⟩)],
    tensor_count := 2, total_parameters := 10 }

/-- `pt` succeeds with an empty-but-present metadata map. -/
def c3EnvEmpty : String → List Nat → FrameworkOutcome :=
  fun fw _ =>
    if fw = "pt" then .success (some []) [("t", ⟨[2], "torch.float32", 2, 8⟩)]
    else .failEarly "framework unavailable"

/-- `pt` succeeds with no metadata at all. -/
def c3EnvAbsent : String → List Nat → FrameworkOutcome :=
  fun fw _ =>
    if fw = "pt" then .success none [("t", ⟨[2], "torch.float32", 2, 8⟩)]
    else .failEarly "framework unavailable"

/-- `pt` raises, every other framework succeeds with no tensors. -/
def c6Env : String → List Nat → FrameworkOutcome :=
  fun fw _ => if fw = "pt" then .failEarly "pt backend raised" else .success none []

/-- An environment in which every framework succeeds with no tensors. -/
def c9Env : String → List Nat → FrameworkOutcome :=
  fun _ _ => .success none []

/-! ## Claims about `get_safetensor_info` -/

/-- Summing the `parameters` fields of converted records is summing the
backend `numel` values. -/
theorem sum_params_map (ts : List (String × BTensor)) :
    ((ts.map (fun p => (p.1, toTensorOut p.2))).map (fun p => p.2.parameters)).sum
      = (ts.map (fun p => p.2.numel)).sum := by
  induction ts with
  | nil => rfl
  | cons p rest ih =>
    simp only [List.map_cons, List.sum_cons, ih]
    rfl

/-- Claim C1: for every successfully inspected file (the backend keys being
unique, as JSON object keys are), the info dict's `tensor_count` equals the
number of tensor entries and `total_parameters` equals the sum of the
per-tensor `parameters` fields. -/
theorem c1_counts_and_totals (path : String) (env : String → List Nat → FrameworkOutcome)
    (b : List Nat) (r : STInfo)
    (hok : get_safetensor_info path env b = .ok r)
    (hnd : ∀ fw md ts, env fw b = .success md ts → (ts.map Prod.fst).Nodup) :
    r.tensor_count = r.tensors.length ∧
    r.total_parameters = (r.tensors.map (fun p => p.2.parameters)).sum := by
  obtain ⟨fw, md, ts, cur2, hmem, hsucc, hr⟩ :=
    tryFrameworks_ok_char path env b frameworks_to_try none none r hok
  have hnodup := hnd fw md ts hsucc
  have hagg := aggLoop_char ts [] 0 hnodup (by simp)
  subst hr
  refine ⟨rfl, ?_⟩
  simp only [buildInfo, hagg, List.nil_append, Nat.zero_add]
  exact (sum_params_map ts).symm

/-- Witness for C1 at a concrete environment with two tensors. -/
theorem c1_counts_and_totals_witness :
    c1Info.tensor_count = c1Info.tensors.length ∧
    c1Info.total_parameters = (c1Info.tensors.map (fun p => p.2.parameters)).sum :=
  c1_counts_and_totals "p" c1Env [] c1Info rfl
    (by
      intro fw md ts h
      injection h with hmd hts
      subst hts
      decide)

/-- Claim C4: inspection is all-or-nothing — it either fails with an error
and produces no info dict, or returns a fully populated dict whose tensors
are the complete tensor set of one fully successful framework attempt, with
every aggregate field set consistently. -/
theorem c4_all_or_nothing (path : String) (env : String → List Nat → FrameworkOutcome)
    (b : List Nat) :
    (∃ e, get_safetensor_info path env b = .error e) ∨
    (∃ r fw md ts, fw ∈ frameworks_to_try ∧ env fw b = .success md ts ∧
      get_safetensor_info path env b = .ok r ∧
      r.tensors = (aggLoop ts [] 0).1 ∧
      r.tensor_count = r.tensors.length ∧
      r.total_parameters = (aggLoop ts [] 0).2 ∧
      r.file_size = b.length ∧ r.file_path = path) := by
  cases hres : get_safetensor_info path env b with
  | error e => exact Or.inl ⟨e, rfl⟩
  | ok r =>
    obtain ⟨fw, md, ts, cur2, hmem, hsucc, hr⟩ :=
      tryFrameworks_ok_char path env b frameworks_to_try none none r hres
    subst hr
    exact Or.inr ⟨_, fw, md, ts, hmem, hsucc, rfl, rfl, rfl, rfl, rfl, rfl⟩

/-- Claim C9: inspection is deterministic — two runs over the same file bytes
in the same environment produce identical outcomes. -/
theorem c9_deterministic (path : String) (env : String → List Nat → FrameworkOutcome)
    (b : List Nat) (r1 r2 : Except String STInfo)
    (h1 : get_safetensor_info path env b = r1)
    (h2 : get_safetensor_info path env b = r2) :
    r1 = r2 := by
  rw [← h1, ← h2]

/-- Witness for C9 at a concrete environment. -/
theorem c9_deterministic_witness :
    (Except.ok (buildInfo "p" 0 none []) : Except String STInfo) =
      .ok (buildInfo "p" 0 none []) :=
  c9_deterministic "p" c9Env [] _ _ rfl rfl

/-- Counterexample to claim C3: a run whose header carries an
empty-but-present `__metadata__` map produces exactly the same info dict as
a run whose header has no `__metadata__` at all — the two states are not
distinguishable in the output. -/
theorem c3_counterexample :
    c3EnvEmpty "pt" [] = .success (some []) [("t", ⟨[2], "torch.float32", 2, 8⟩)] ∧
    c3EnvAbsent "pt" [] = .success none [("t", ⟨[2], "torch.float32", 2, 8⟩)] ∧
    get_safetensor_info "p" c3EnvEmpty [] = get_safetensor_info "p" c3EnvAbsent [] :=
  ⟨rfl, rfl, rfl⟩

/-- Claim C3 as amended: a header lacking `__metadata__` yields an info dict
whose metadata field is `none`, but an empty-but-present metadata map also
yields `none` (the Python truthiness test conflates them), so the two states
are not distinguishable. -/
theorem c3_amended_metadata_none (path : String)
    (env : String → List Nat → FrameworkOutcome) (b : List Nat)
    (md : Option MetaMap) (ts : List (String × BTensor)) (r : STInfo)
    (hpt : env "pt" b = .success md ts)
    (hmd : md = none ∨ md = some [])
    (hok : get_safetensor_info path env b = .ok r) :
    r.metadata = none := by
  unfold get_safetensor_info frameworks_to_try at hok
  simp only [tryFrameworks, hpt] at hok
  cases hok
  rcases hmd with h | h <;> subst h <;> simp [buildInfo, updateMetadata]

/-- Witness for the amended C3 at a concrete environment. -/
theorem c3_amended_metadata_none_witness :
    (buildInfo "p" 0 none [("t", ⟨[2], "torch.float32", 2, 8⟩)]).metadata = none :=
  c3_amended_metadata_none "p" c3EnvEmpty [] (some [])
    [("t", ⟨[2], "torch.float32", 2, 8⟩)]
    (buildInfo "p" 0 none [("t", ⟨[2], "torch.float32", 2, 8⟩)])
    rfl (Or.inr rfl) rfl

/-- Counterexample to claim C6: an input on which the `pt` attempt raises is
recovered internally — the failure is never surfaced and the caller receives
a success built from a later framework. -/
theorem c6_counterexample :
    c6Env "pt" [] = .failEarly "pt backend raised" ∧
    get_safetensor_info "p" c6Env [] = .ok (buildInfo "p" 0 none []) :=
  ⟨rfl, rfl⟩

/-- Claim C6 as amended: the parser does recover internally — after a failed
framework attempt it retries the next framework, and a success there swallows
the earlier failure; only if all four frameworks fail is an error surfaced,
and it is a single untyped message carrying only the last framework's error. -/
theorem c6_amended_recovers (path : String)
    (env : String → List Nat → FrameworkOutcome) (b : List Nat)
    (e : String) (md : Option MetaMap) (ts : List (String × BTensor))
    (hpt : env "pt" b = .failEarly e)
    (htf : env "tf" b = .success md ts) :
    get_safetensor_info path env b =
      .ok (buildInfo path b.length (updateMetadata none md) ts) := by
  unfold get_safetensor_info frameworks_to_try
  simp only [tryFrameworks, hpt, htf]

/-- Witness for the amended C6 at a concrete environment. -/
theorem c6_amended_recovers_witness :
    get_safetensor_info "p" c6Env [] =
      .ok (buildInfo "p" 0 (updateMetadata none none) []) :=
  c6_amended_recovers "p" c6Env [] "pt backend raised" none [] rfl rfl

/-- Claim C7: the source tries exactly the four frameworks `pt`, `tf`,
`flax`, `numpy`, in that order, stopping at the first success; when all four
fail it reports a single error containing only the last framework's error. -/
theorem c7_framework_order (path : String) (env : String → List Nat → FrameworkOutcome)
    (b : List Nat) :
    get_safetensor_info path env b = frameworkChainSpec path env b := by
  unfold get_safetensor_info frameworks_to_try frameworkChainSpec
  cases h1 : env "pt" b <;> cases h2 : env "tf" b <;> cases h3 : env "flax" b <;>
    cases h4 : env "numpy" b <;>
    simp [tryFrameworks, h1, h2, h3, h4, Option.getD]

/-! ## Claims about the spec-modelled container parser -/

/-- A concrete header whose keys are in reverse alphabetic order and whose
offsets are in decreasing order. -/
def c2Header : HeaderJson :=
  ⟨none, [("b", ⟨"F32", [1], 4, 8⟩), ("a", ⟨"F32", [1], 0, 4⟩)]⟩

/-- A JSON parse function recognising exactly the empty header blob. -/
def c2Jp : List Nat → Option HeaderJson :=
  fun bs => if bs = [] then some c2Header else none

/-- 16 bytes: an 8-byte zero length prefix and 8 payload bytes. -/
def c2Bytes : List Nat := List.replicate 16 0

/-- The report produced for `c2Bytes` under `c2Jp`. -/
def c2Report : Report :=
  ⟨"f", 16, none,
   [⟨"b", "F32", [1], 4, 8, 1, 4⟩, ⟨"a", "F32", [1], 0, 4, 1, 4⟩], 2, 2⟩

/-- A JSON parse function that always fails. -/
def c5Jp : List Nat → Option HeaderJson := fun _ => none

/-- 8 bytes declaring `header_length = 1` with no header byte following. -/
def c5Bytes : List Nat := [1, 0, 0, 0, 0, 0, 0, 0]

/-- A concrete header with metadata and one `F16` tensor of shape `[2, 3]`. -/
def c8Header : HeaderJson :=
  ⟨some [("format", "pt")], [("w", ⟨"F16", [2, 3], 0, 12⟩)]⟩

/-- A JSON parse function recognising exactly the empty header blob. -/
def c8Jp : List Nat → Option HeaderJson :=
  fun bs => if bs = [] then some c8Header else none

/-- 20 bytes: an 8-byte zero length prefix and 12 payload bytes. -/
def c8Bytes : List Nat := List.replicate 20 0

/-- The report produced for `c8Bytes` under `c8Jp`. -/
def c8Report : Report :=
  ⟨"f", 20, some [("format", "pt")], [⟨"w", "F16", [2, 3], 0, 12, 6, 12⟩], 1, 6⟩

/-- The single validated tensor of `c8Report`. -/
def c8Tensor : ValidatedTensor := ⟨"w", "F16", [2, 3], 0, 12, 6, 12⟩

/-- Claim C2: for every well-formed file, the tensors of a successful report
appear in exactly the order in which their keys appear in the parsed header
(insertion order), whatever that order is alphabetically or offset-wise. -/
theorem c2_order_preserved (jp : List Nat → Option HeaderJson) (path : String)
    (bytes : List Nat) (r : Report)
    (hok : inspectFile jp path bytes = .ok r) :
    ∃ h, jp (headerBytes bytes) = some h ∧
      r.tensors.map (fun v => v.name) = h.entries.map Prod.fst := by
  simp only [inspectFile] at hok
  split at hok
  · exact Except.noConfusion hok
  · split at hok
    · exact Except.noConfusion hok
    · cases hjp : jp (headerBytes bytes) with
      | none =>
        simp only [hjp] at hok
        exact Except.noConfusion hok
      | some h =>
        simp only [hjp] at hok
        cases hval : validateEntries h.entries with
        | error e =>
          simp only [hval] at hok
          exact Except.noConfusion hok
        | ok vts =>
          simp only [hval] at hok
          cases hrng : checkRanges (bytes.length - 8 - read_le64 bytes) vts with
          | error e =>
            simp only [hrng] at hok
            exact Except.noConfusion hok
          | ok u =>
            simp only [hrng] at hok
            cases hok
            exact ⟨h, rfl, validateEntries_ok_names h.entries vts hval⟩

/-- Witness for C2: keys `["b", "a"]` (reverse alphabetic, decreasing
offsets) are reported in header order. -/
theorem c2_order_preserved_witness :
    ∃ h, c2Jp (headerBytes c2Bytes) = some h ∧
      c2Report.tensors.map (fun v => v.name) = h.entries.map Prod.fst :=
  c2_order_preserved c2Jp "f" c2Bytes c2Report rfl

/-- Claim C5: a file of at least 8 bytes whose length prefix declares
`header_length = K > 0` but whose total length is below `8 + K` always fails
with the `truncatedFile` error kind. -/
theorem c5_truncation (jp : List Nat → Option HeaderJson) (path : String)
    (bytes : List Nat) (K : Nat)
    (hlen : 8 ≤ bytes.length) (hK : read_le64 bytes = K) (_hpos : 0 < K)
    (hshort : bytes.length < 8 + K) :
    inspectFile jp path bytes = .error (.truncatedFile bytes.length (8 + K)) := by
  simp only [inspectFile]
  rw [if_neg (by omega), hK, if_pos hshort]

/-- Witness for C5: 8 bytes declaring a 1-byte header. -/
theorem c5_truncation_witness :
    inspectFile c5Jp "f" c5Bytes = .error (.truncatedFile 8 9) :=
  c5_truncation c5Jp "f" c5Bytes 1 (by decide) (by decide) (by decide) (by decide)

/-- Claim C8: every tensor of a successful report satisfies
`size_bytes = parameters * dtype_byte_width dtype` with
`parameters = shape.prod` (1 for an empty shape). -/
theorem c8_size_invariant (jp : List Nat → Option HeaderJson) (path : String)
    (bytes : List Nat) (r : Report)
    (hok : inspectFile jp path bytes = .ok r) :
    ∀ vt ∈ r.tensors, ∃ w, dtype_byte_width vt.dtype = some w ∧
      vt.size_bytes = vt.parameters * w ∧ vt.parameters = vt.shape.prod := by
  simp only [inspectFile] at hok
  split at hok
  · exact Except.noConfusion hok
  · split at hok
    · exact Except.noConfusion hok
    · cases hjp : jp (headerBytes bytes) with
      | none =>
        simp only [hjp] at hok
        exact Except.noConfusion hok
      | some h =>
        simp only [hjp] at hok
        cases hval : validateEntries h.entries with
        | error e =>
          simp only [hval] at hok
          exact Except.noConfusion hok
        | ok vts =>
          simp only [hval] at hok
          cases hrng : checkRanges (bytes.length - 8 - read_le64 bytes) vts with
          | error e =>
            simp only [hrng] at hok
            exact Except.noConfusion hok
          | ok u =>
            simp only [hrng] at hok
            cases hok
            intro vt hmem
            obtain ⟨k, e, hv⟩ := validateEntries_ok_mem h.entries vts hval vt hmem
            obtain ⟨hn, hp, w, hw, hs⟩ := validateEntry_ok_inv k e vt hv
            exact ⟨w, hw, hs, hp⟩

/-- Witness for C8: an `F16` tensor of shape `[2, 3]` with a 12-byte range. -/
theorem c8_size_invariant_witness :
    ∃ w, dtype_byte_width c8Tensor.dtype = some w ∧
      c8Tensor.size_bytes = c8Tensor.parameters * w ∧
      c8Tensor.parameters = c8Tensor.shape.prod :=
  c8_size_invariant c8Jp "f" c8Bytes c8Report rfl c8Tensor (by decide)

/-! ## Claim about `format_bytes` -/

/-- String concatenation is associative. -/
theorem string_append_assoc (a b c : String) : a ++ b ++ c = a ++ (b ++ c) := by
  rcases a with ⟨la⟩
  rcases b with ⟨lb⟩
  rcases c with ⟨lc⟩
  exact congrArg String.mk (List.append_assoc la lb lc)

/-- Rounding a non-negative rational is non-negative. -/
theorem roundHalfEven_nonneg (q : ℚ) (hq : 0 ≤ q) : 0 ≤ roundHalfEven q := by
  have hf : (0 : ℤ) ≤ ⌊q⌋ := Int.floor_nonneg.mpr hq
  simp only [roundHalfEven]
  split_ifs <;> omega

/-- The rendered fixed-point string of a non-negative value is an integer
part, a dot, and a single decimal digit. -/
theorem renderFixed1_shape (q : ℚ) (hq : 0 ≤ q) :
    ∃ m : ℤ, 0 ≤ m ∧ 0 ≤ m % 10 ∧ m % 10 < 10 ∧
      renderFixed1 q = toString (m / 10) ++ "." ++ toString (m % 10) := by
  refine ⟨roundHalfEven (q * 10), ?_, ?_, ?_, rfl⟩
  · exact roundHalfEven_nonneg _ (mul_nonneg hq (by norm_num))
  · exact Int.emod_nonneg _ (by norm_num)
  · exact Int.emod_lt_of_pos _ (by norm_num)

/-- Claim C10: `format_bytes` is total on naturals and produces
`"<integer>.<one digit> <unit>"`, where the number of divisions performed is
`min (Nat.log 1024 n) 5` — i.e. the unit is the largest of B, KB, MB, GB, TB
whose scaled value is below 1024 for inputs below `1024^5`, and PB for all
larger inputs. -/
theorem c10_format_bytes_shape (n : Nat) :
    format_bytes n =
      renderFixed1 ((n : ℚ) / 1024 ^ min (Nat.log 1024 n) 5) ++ " " ++
        fbUnitName (min (Nat.log 1024 n) 5) ∧
    ∃ m : ℤ, 0 ≤ m ∧ 0 ≤ m % 10 ∧ m % 10 < 10 ∧
      format_bytes n = toString (m / 10) ++ "." ++ toString (m % 10) ++ " " ++
        fbUnitName (min (Nat.log 1024 n) 5) := by
  have hmain : format_bytes n =
      renderFixed1 ((n : ℚ) / 1024 ^ min (Nat.log 1024 n) 5) ++ " " ++
        fbUnitName (min (Nat.log 1024 n) 5) := by
    have e2 : (n : ℚ) / 1024 / 1024 = (n : ℚ) / 1048576 := by
      rw [div_div]; norm_num
    have e3 : (n : ℚ) / 1048576 / 1024 = (n : ℚ) / 1073741824 := by
      rw [div_div]; norm_num
    have e4 : (n : ℚ) / 1073741824 / 1024 = (n : ℚ) / 1099511627776 := by
      rw [div_div]; norm_num
    have e5 : (n : ℚ) / 1099511627776 / 1024 = (n : ℚ) / 1125899906842624 := by
      rw [div_div]; norm_num
    rcases lt_or_le n 1024 with h1 | h1
    · have hlog : Nat.log 1024 n = 0 := Nat.log_eq_zero_iff.mpr (Or.inl h1)
      have hc1 : (n : ℚ) < 1024 := by exact_mod_cast h1
      rw [hlog]
      simp only [format_bytes, fbAux, if_pos hc1]
      norm_num [fbUnitName]
    · have hc1 : ¬((n : ℚ) < 1024) := by exact_mod_cast not_lt.mpr h1
      rcases lt_or_le n 1048576 with h2 | h2
      · have hlog : Nat.log 1024 n = 1 :=
          Nat.log_eq_of_pow_le_of_lt_pow (by norm_num; omega) (by norm_num; omega)
        have hc2 : (n : ℚ) / 1024 < 1024 := by
          rw [div_lt_iff₀ (by norm_num)]
          norm_num
          exact_mod_cast h2
        rw [hlog]
        simp only [format_bytes, fbAux, if_neg hc1, if_pos hc2]
        norm_num [fbUnitName]
      · have hc2 : ¬((n : ℚ) / 1024 < 1024) := by
          rw [not_lt, le_div_iff₀ (by norm_num)]
          norm_num
          exact_mod_cast h2
        rcases lt_or_le n 1073741824 with h3 | h3
        · have hlog : Nat.log 1024 n = 2 :=
            Nat.log_eq_of_pow_le_of_lt_pow (by norm_num; omega) (by norm_num; omega)
          have hc3 : (n : ℚ) / 1048576 < 1024 := by
            rw [div_lt_iff₀ (by norm_num)]
            norm_num
            exact_mod_cast h3
          rw [hlog]
          simp only [format_bytes, fbAux, if_neg hc1, if_neg hc2, e2, if_pos hc3]
          norm_num [fbUnitName]
        · have hc3 : ¬((n : ℚ) / 1048576 < 1024) := by
            rw [not_lt, le_div_iff₀ (by norm_num)]
            norm_num
            exact_mod_cast h3
          rcases lt_or_le n 1099511627776 with h4 | h4
          · have hlog : Nat.log 1024 n = 3 :=
              Nat.log_eq_of_pow_le_of_lt_pow (by norm_num; omega) (by norm_num; omega)
            have hc4 : (n : ℚ) / 1073741824 < 1024 := by
              rw [div_lt_iff₀ (by norm_num)]
              norm_num
              exact_mod_cast h4
            rw [hlog]
            simp only [format_bytes, fbAux, if_neg hc1, if_neg hc2, e2, if_neg hc3,
              e3, if_pos hc4]
            norm_num [fbUnitName]
          · have hc4 : ¬((n : ℚ) / 1073741824 < 1024) := by
              rw [not_lt, le_div_iff₀ (by norm_num)]
              norm_num
              exact_mod_cast h4
            rcases lt_or_le n 1125899906842624 with h5 | h5
            · have hlog : Nat.log 1024 n = 4 :=
                Nat.log_eq_of_pow_le_of_lt_pow (by norm_num; omega) (by norm_num; omega)
              have hc5 : (n : ℚ) / 1099511627776 < 1024 := by
                rw [div_lt_iff₀ (by norm_num)]
                norm_num
                exact_mod_cast h5
              rw [hlog]
              simp only [format_bytes, fbAux, if_neg hc1, if_neg hc2, e2, if_neg hc3,
                e3, if_neg hc4, e4, if_pos hc5]
              norm_num [fbUnitName]
            · have hc5 : ¬((n : ℚ) / 1099511627776 < 1024) := by
                rw [not_lt, le_div_iff₀ (by norm_num)]
                norm_num
                exact_mod_cast h5
              have hn0 : n ≠ 0 := by omega
              have hlog5 : 5 ≤ Nat.log 1024 n := by
                refine (Nat.pow_le_iff_le_log (by norm_num) hn0).mp ?_
                norm_num
                omega
              have hmin : min (Nat.log 1024 n) 5 = 5 := min_eq_right hlog5
              have hu : fbUnitName 5 = "PB" := rfl
              rw [hmin, hu, show ((1024 : ℚ)) ^ 5 = 1125899906842624 from by norm_num]
              simp only [format_bytes, fbAux, if_neg hc1, if_neg hc2, e2, if_neg hc3,
                e3, if_neg hc4, e4, if_neg hc5, e5]
              rw [string_append_assoc]
              rfl
  refine ⟨hmain, ?_⟩
  obtain ⟨m, hm0, hmod0, hmod, hr⟩ :=
    renderFixed1_shape ((n : ℚ) / 1024 ^ min (Nat.log 1024 n) 5)
      (div_nonneg (Nat.cast_nonneg n) (by positivity))
  exact ⟨m, hm0, hmod0, hmod, by rw [hmain, hr]⟩
